import Mathlib

/-!
Shallow embedding of the Nova volleyball check-in server.

Tables are modelled as in SQLite with primary-key ids: `athletes` and
`events` become finite maps from ids to rows (lookups by id, point-wise
updates), `checkins` stays a list of rows since the handlers count and
filter it.  ISO date and timestamp strings are modelled as integers, which
preserves the order used by the string comparisons in the code.  Each HTTP
handler becomes a function from a database state (plus the request data and
the ambient clock values the handler reads) to a result together with the
successor state.
-/

namespace NovaCheckin

/-- A row of the `athletes` table, restricted to the columns the modelled
handlers read or write. -/
structure Athlete where
  id : String
  hasValidWaiver : Bool
  waiverExpirationDate : Option Int
  lastVisited : Option Int
  updatedAt : Int
deriving DecidableEq

/-- A row of the `events` table, restricted to the columns the modelled
handlers read or write.  `currentCapacity` is an `Int` because the SQL
column is a plain integer that the code can drive negative. -/
structure Event where
  id : String
  date : Int
  maxCapacity : Int
  currentCapacity : Int
  isActive : Bool
  updatedAt : Int
deriving DecidableEq

/-- A row of the `checkins` table. -/
structure CheckIn where
  id : String
  athleteId : String
  eventId : String
  checkInTime : Int
  waiverValidated : Bool
  notes : Option String
  createdAt : Int
deriving DecidableEq

/-- The database state seen by the route handlers. -/
structure DB where
  athletes : String → Option Athlete
  events : String → Option Event
  checkins : List CheckIn

/-- The distinct error responses of POST / (create check-in),
part_001 lines 99-136. -/
inductive CheckInError where
  | missingFields
  | athleteNotFound
  | eventNotFoundOrInactive
  | pastEvent
  | duplicateCheckIn
  | capacityFull
deriving DecidableEq

/-- The HTTP status the handler attaches to each error response. -/
def CheckInError.httpStatus : CheckInError → Nat
  | .missingFields => 400
  | .athleteNotFound => 404
  | .eventNotFoundOrInactive => 404
  | .pastEvent => 400
  | .duplicateCheckIn => 400
  | .capacityFull => 400

/-- Waiver validation, part_001 lines 138-148: `waiverValidated` is false
unless `hasValidWaiver`; with no expiration date the waiver is perpetual;
with one, valid iff the expiration is strictly later than `now`. -/
def validateWaiver (hasValidWaiver : Bool) (waiverExpirationDate : Option Int)
    (now : Int) : Bool :=
  if hasValidWaiver then
    match waiverExpirationDate with
    | some expirationDate => decide (now < expirationDate)
    | none => true
  else
    false

/-- The data of one POST / request: the body fields plus the values the
handler draws from the ambient clock and uuid generator. -/
structure CheckInRequest where
  athleteId : String
  eventId : String
  notes : Option String
  today : Int
  now : Int
  newId : String

/-- The read/validation phase of POST / (part_001 lines 99-148): every
statement up to `BEGIN TRANSACTION`.  Checks run in source order: required
fields, athlete lookup, event lookup with `isActive = 1`, past-date test,
duplicate test, capacity test; on success it yields the computed
`waiverValidated` flag. -/
def checkPhase (db : DB) (r : CheckInRequest) : Except CheckInError Bool :=
  if r.athleteId = "" ∨ r.eventId = "" then
    .error .missingFields
  else
    match db.athletes r.athleteId with
    | none => .error .athleteNotFound
    | some athlete =>
      match db.events r.eventId with
      | none => .error .eventNotFoundOrInactive
      | some event =>
        if event.isActive = false then
          .error .eventNotFoundOrInactive
        else if event.date < r.today then
          .error .pastEvent
        else if (db.checkins.find? fun c =>
            c.athleteId = r.athleteId ∧ c.eventId = r.eventId).isSome then
          .error .duplicateCheckIn
        else if event.maxCapacity ≤ event.currentCapacity then
          .error .capacityFull
        else
          .ok (validateWaiver athlete.hasValidWaiver
            athlete.waiverExpirationDate r.now)

/-- The write phase of POST / (part_001 lines 154-176): the transaction
body.  Inserts the check-in row, increments the event row's
`currentCapacity` in place (the SQL `UPDATE ... SET currentCapacity =
currentCapacity + 1` reads the stored value at write time), and stamps the
athlete's `lastVisited`. -/
def writePhase (db : DB) (r : CheckInRequest) (waiverValidated : Bool) : DB :=
  { athletes := fun i =>
      if i = r.athleteId then
        (db.athletes i).map fun a =>
          { a with lastVisited := some r.today, updatedAt := r.now }
      else db.athletes i
    events := fun i =>
      if i = r.eventId then
        (db.events i).map fun e =>
          { e with currentCapacity := e.currentCapacity + 1, updatedAt := r.now }
      else db.events i
    checkins :=
      { id := r.newId, athleteId := r.athleteId, eventId := r.eventId
        checkInTime := r.now, waiverValidated := waiverValidated
        notes := r.notes, createdAt := r.now } :: db.checkins }

/-- POST / (create check-in) as one sequential call: the checks run, and
only if all pass does the transaction commit the three writes.  On any
error the state is unchanged. -/
def createCheckIn (db : DB) (r : CheckInRequest) : Except CheckInError Bool × DB :=
  match checkPhase db r with
  | .error e => (.error e, db)
  | .ok waiverValidated => (.ok waiverValidated, writePhase db r waiverValidated)

/-- DELETE /:id on check-ins can only fail with 404. -/
inductive ReverseError where
  | notFound
deriving DecidableEq

/-- DELETE /:id (delete check-in), part_001 lines 237-270: look up the row,
then in one transaction delete it and decrement the owning event's
`currentCapacity` — unconditionally, with no lower bound. -/
def reverseCheckIn (db : DB) (id : String) (now : Int) :
    Except ReverseError Unit × DB :=
  match db.checkins.find? (fun c => c.id = id) with
  | none => (.error .notFound, db)
  | some checkin =>
    (.ok (),
      { db with
        checkins := db.checkins.filter fun c => ¬ c.id = id
        events := fun i =>
          if i = checkin.eventId then
            (db.events i).map fun e =>
              { e with currentCapacity := e.currentCapacity - 1, updatedAt := now }
          else db.events i })

/-- PATCH /:id/notes (update check-in notes), part_001 lines 206-234:
check existence, then update only the `notes` column. -/
def updateNotes (db : DB) (id : String) (notes : Option String) :
    Except ReverseError Unit × DB :=
  match db.checkins.find? (fun c => c.id = id) with
  | none => (.error .notFound, db)
  | some _ =>
    (.ok (),
      { db with checkins := db.checkins.map fun c =>
          if c.id = id then { c with notes := notes } else c })

/-- Error responses of DELETE /:id on events. -/
inductive DeleteEventError where
  | notFound
  | hasCheckIns
deriving DecidableEq

/-- DELETE /:id (delete event), part_002 lines 227-251: 404 when unknown,
refuse with 400 when any check-in references the event, else delete the
event row. -/
def deleteEvent (db : DB) (id : String) : Except DeleteEventError Unit × DB :=
  match db.events id with
  | none => (.error .notFound, db)
  | some _ =>
    if 0 < db.checkins.countP (fun c => c.eventId = id) then
      (.error .hasCheckIns, db)
    else
      (.ok (), { db with events := fun i => if i = id then none else db.events i })

/-- DELETE /:id (delete athlete), src/server/routes/athletes.ts lines
224-240: 404 when unknown, else delete the athlete row and nothing else. -/
def deleteAthlete (db : DB) (id : String) : Except ReverseError Unit × DB :=
  match db.athletes id with
  | none => (.error .notFound, db)
  | some _ =>
    (.ok (), { db with athletes := fun i => if i = id then none else db.athletes i })

/-- The statistics payload of GET /:id/stats on events.  `capacityUsed`
is kept as a rational: the handler formats it with `toFixed(1)`. -/
structure EventStats where
  totalCheckins : Nat
  waiverValidated : Nat
  waiverNotValidated : Nat
  capacityUsed : ℚ
deriving DecidableEq

/-- JavaScript `toFixed(1)` on a finite value: the nearest multiple of
1/10, ties away from zero upward (the EcmaScript rule picks the larger
candidate integer). -/
def toFixed1 (x : ℚ) : ℚ := (⌊x * 10 + 1 / 2⌋ : ℚ) / 10

/-- GET /:id/stats (event statistics), part_002 lines 254-291: counts of
check-in rows for the event (total and split by the stored
`waiverValidated` snapshot), and `capacityUsed` =
`(count / maxCapacity * 100).toFixed(1)`. -/
def getEventStats (db : DB) (id : String) : Option EventStats :=
  match db.events id with
  | none => none
  | some event =>
    let total := db.checkins.countP fun c => c.eventId = id
    some
      { totalCheckins := total
        waiverValidated := db.checkins.countP fun c =>
          c.eventId = id ∧ c.waiverValidated = true
        waiverNotValidated := db.checkins.countP fun c =>
          c.eventId = id ∧ c.waiverValidated = false
        capacityUsed := toFixed1 ((total : ℚ) / (event.maxCapacity : ℚ) * 100) }

/-- Spec-side formula (from the spec's words, for comparison with the
code): `capacityUsed` is `(checkins-for-event / event.maxCapacity) * 100`,
rounded to one decimal place. -/
def specCapacityUsed (checkinsForEvent : Nat) (maxCapacity : Int) : ℚ :=
  (round (((checkinsForEvent : ℚ) / (maxCapacity : ℚ) * 100) * 10) : ℚ) / 10

/-- Sequential execution of a list of POST / requests, one call at a
time. -/
def runCreates : DB → List CheckInRequest → DB
  | db, [] => db
  | db, r :: rs => runCreates (createCheckIn db r).2 rs

/-- How many of the sequentially executed POST / requests succeed. -/
def countCreateOks : DB → List CheckInRequest → Nat
  | _, [] => 0
  | db, r :: rs =>
    (match (createCheckIn db r).1 with
      | .ok _ => 1
      | .error _ => 0) + countCreateOks (createCheckIn db r).2 rs

/-- The state-changing operations of the check-in service, for reasoning
about arbitrary operation sequences. -/
inductive Op where
  | create (r : CheckInRequest)
  | reverse (id : String) (now : Int)
  | editNotes (id : String) (notes : Option String)
  | removeEvent (id : String)
  | removeAthlete (id : String)

/-- State transition of one operation (the result value is dropped). -/
def applyOp (db : DB) : Op → DB
  | .create r => (createCheckIn db r).2
  | .reverse id now => (reverseCheckIn db id now).2
  | .editNotes id notes => (updateNotes db id notes).2
  | .removeEvent id => (deleteEvent db id).2
  | .removeAthlete id => (deleteAthlete db id).2

/-- Sequential execution of a list of operations. -/
def runOps : DB → List Op → DB
  | db, [] => db
  | db, op :: ops => runOps (applyOp db op) ops

/-- Invariant 3 of the spec: at most one check-in row per
(athleteId, eventId) pair. -/
def uniquePairs (db : DB) : Prop :=
  ∀ a e, db.checkins.countP (fun c => c.athleteId = a ∧ c.eventId = e) ≤ 1

/-- Fixture athlete with a perpetual waiver. -/
def fixAthlete1 : Athlete :=
  { id := "a1", hasValidWaiver := true, waiverExpirationDate := none
    lastVisited := none, updatedAt := 0 }

/-- Second fixture athlete. -/
def fixAthlete2 : Athlete :=
  { id := "a2", hasValidWaiver := true, waiverExpirationDate := none
    lastVisited := none, updatedAt := 0 }

/-- Fixture event with one free slot, active, dated today. -/
def raceEvent : Event :=
  { id := "e1", date := 0, maxCapacity := 1, currentCapacity := 0
    isActive := true, updatedAt := 0 }

/-- Fixture database for the race demonstrations: two athletes, one
active event dated today with a single open slot, no check-ins. -/
def raceDB : DB :=
  { athletes := fun i =>
      if i = "a1" then some fixAthlete1
      else if i = "a2" then some fixAthlete2
      else none
    events := fun i => if i = "e1" then some raceEvent else none
    checkins := [] }

/-- First race request: athlete a1 into event e1. -/
def raceReq1 : CheckInRequest :=
  { athleteId := "a1", eventId := "e1", notes := none, today := 0, now := 0
    newId := "c1" }

/-- Second race request: athlete a2 into the same event. -/
def raceReq2 : CheckInRequest :=
  { athleteId := "a2", eventId := "e1", notes := none, today := 0, now := 0
    newId := "c2" }

/-- Duplicate-race request: athlete a1 into event e1 a second time, with a
fresh uuid. -/
def dupReq2 : CheckInRequest :=
  { athleteId := "a1", eventId := "e1", notes := none, today := 0, now := 0
    newId := "c2" }

/-- Fixture event dated strictly after today, active. -/
def futureEvent : Event :=
  { id := "e1", date := 5, maxCapacity := 10, currentCapacity := 0
    isActive := true, updatedAt := 0 }

/-- Fixture database whose only event is active and dated in the
future. -/
def futureDB : DB :=
  { athletes := fun i => if i = "a1" then some fixAthlete1 else none
    events := fun i => if i = "e1" then some futureEvent else none
    checkins := [] }

/-- Fixture database for the disabled-event witness: the event is dated
today but inactive. -/
def disabledDB : DB :=
  { athletes := fun i => if i = "a1" then some fixAthlete1 else none
    events := fun i =>
      if i = "e1" then
        some { id := "e1", date := 0, maxCapacity := 10, currentCapacity := 0
               isActive := false, updatedAt := 0 }
      else none
    checkins := [] }

/-- Fixture check-in row referencing event e1. -/
def fixCheckIn1 : CheckIn :=
  { id := "c1", athleteId := "a1", eventId := "e1", checkInTime := 0
    waiverValidated := true, notes := none, createdAt := 0 }

/-- Fixture database with a corrupted capacity: event e1 stores
`currentCapacity = 0` although one check-in row references it. -/
def corruptDB : DB :=
  { athletes := fun i => if i = "a1" then some fixAthlete1 else none
    events := fun i => if i = "e1" then some raceEvent else none
    checkins := [fixCheckIn1] }

/-- Fixture database with a consistent capacity: event e1 stores
`currentCapacity = 1` matching its single check-in row. -/
def reverseDB : DB :=
  { athletes := fun i => if i = "a1" then some fixAthlete1 else none
    events := fun i =>
      if i = "e1" then some { raceEvent with currentCapacity := 1 }
      else none
    checkins := [fixCheckIn1] }

/-- Fixture event for the statistics witness. -/
def statsEvent : Event :=
  { id := "e1", date := 0, maxCapacity := 8, currentCapacity := 1
    isActive := true, updatedAt := 0 }

/-- Fixture check-in row for the statistics witness. -/
def statsCheckIn : CheckIn :=
  { id := "c1", athleteId := "a1", eventId := "e1", checkInTime := 0
    waiverValidated := true, notes := none, createdAt := 0 }

/-- Fixture database for the statistics witness. -/
def statsDB : DB :=
  { athletes := fun _ => none
    events := fun i => if i = "e1" then some statsEvent else none
    checkins := [statsCheckIn] }

/-- Fixture database for the event-delete witness: event `e1` has one
check-in, event `e2` has none. -/
def delDB : DB :=
  { athletes := fun _ => none
    events := fun i =>
      if i = "e1" then some statsEvent
      else if i = "e2" then
        some { id := "e2", date := 0, maxCapacity := 4, currentCapacity := 0
               isActive := true, updatedAt := 0 }
      else none
    checkins := [statsCheckIn] }

/-- C7: at check-in, waiver validity is false whenever `hasValidWaiver` is
false; true when `hasValidWaiver` is true with no expiration date; and with
an expiration date present, true iff the expiration is strictly later than
the reference now, so an expiration equal to now yields false. -/
theorem validateWaiver_characterization (hasValidWaiver : Bool)
    (waiverExpirationDate : Option Int) (now : Int) :
    validateWaiver hasValidWaiver waiverExpirationDate now = true ↔
      hasValidWaiver = true ∧
        (waiverExpirationDate = none ∨
          ∃ d, waiverExpirationDate = some d ∧ now < d) := by
  unfold validateWaiver
  cases hasValidWaiver <;> cases waiverExpirationDate <;> simp

/-- C8: for every existing event, GET /:id/stats reports a `capacityUsed`
equal to (check-in count for the event / maxCapacity) * 100 rounded to one
decimal place, computed from the live check-in count. -/
theorem getEventStats_capacityUsed (db : DB) (id : String) (event : Event)
    (hev : db.events id = some event) :
    ∃ s, getEventStats db id = some s ∧
      s.totalCheckins = db.checkins.countP (fun c => c.eventId = id) ∧
      s.capacityUsed =
        specCapacityUsed (db.checkins.countP fun c => c.eventId = id)
          event.maxCapacity := by
  simp only [getEventStats, hev]
  refine ⟨_, rfl, rfl, ?_⟩
  simp [toFixed1, specCapacityUsed, round_eq]

/-- Witness for C8 at a concrete database: one check-in, capacity 8. -/
theorem getEventStats_capacityUsed_witness :
    ∃ s, getEventStats statsDB "e1" = some s ∧
      s.totalCheckins = statsDB.checkins.countP (fun c => c.eventId = "e1") ∧
      s.capacityUsed =
        specCapacityUsed (statsDB.checkins.countP fun c => c.eventId = "e1")
          statsEvent.maxCapacity :=
  getEventStats_capacityUsed statsDB "e1" statsEvent (by simp [statsDB])

/-- C10: DELETE /:id on athletes only removes the athlete row: the
check-ins table and every event row are left unchanged, whether the delete
succeeds or 404s. -/
theorem deleteAthlete_frame (db : DB) (id : String) :
    (deleteAthlete db id).2.checkins = db.checkins ∧
    (deleteAthlete db id).2.events = db.events := by
  unfold deleteAthlete
  cases h : db.athletes id <;> simp

/-- C9: DELETE /:id on events fails (with the has-check-ins rejection) and
changes nothing when any check-in references the event; when no check-in
references it, the event row is removed and nothing else changes; and any
successful delete implies the event had zero check-ins. -/
theorem deleteEvent_requires_no_checkins (db : DB) (id : String) (ev : Event)
    (hev : db.events id = some ev) :
    (0 < db.checkins.countP (fun c => c.eventId = id) →
      (deleteEvent db id).1 = .error .hasCheckIns ∧ (deleteEvent db id).2 = db) ∧
    (db.checkins.countP (fun c => c.eventId = id) = 0 →
      (deleteEvent db id).1 = .ok () ∧
      (deleteEvent db id).2.events id = none ∧
      (∀ i, ¬ i = id → (deleteEvent db id).2.events i = db.events i) ∧
      (deleteEvent db id).2.checkins = db.checkins ∧
      (deleteEvent db id).2.athletes = db.athletes) ∧
    ((deleteEvent db id).1 = .ok () →
      db.checkins.countP (fun c => c.eventId = id) = 0) := by
  simp only [deleteEvent, hev]
  by_cases hc : 0 < db.checkins.countP (fun c => decide (c.eventId = id))
  · rw [if_pos hc]
    refine ⟨fun _ => ⟨rfl, rfl⟩, fun h0 => absurd h0 (by omega), fun h => ?_⟩
    exact Except.noConfusion h
  · rw [if_neg hc]
    refine ⟨fun h => absurd h hc, fun _ => ⟨rfl, ?_, fun i hi => ?_, rfl, rfl⟩,
      fun _ => by omega⟩
    · simp
    · simp only [if_neg hi]

/-- Witness for C9 at a concrete database: deleting `e1` (one check-in)
is refused and leaves the state unchanged. -/
theorem deleteEvent_requires_no_checkins_witness :
    (deleteEvent delDB "e1").1 = .error .hasCheckIns ∧
      (deleteEvent delDB "e1").2 = delDB :=
  (deleteEvent_requires_no_checkins delDB "e1" statsEvent (by simp [delDB])).1
    (by simp [delDB, statsCheckIn])

/-- A successful read/check phase implies every precondition of POST /
held against the state it read, and the returned flag is the waiver
computation for the athlete it loaded. -/
theorem checkPhase_ok_spec (db : DB) (r : CheckInRequest) (wv : Bool)
    (h : checkPhase db r = .ok wv) :
    ¬ r.athleteId = "" ∧ ¬ r.eventId = "" ∧
    (∃ a, db.athletes r.athleteId = some a ∧
      wv = validateWaiver a.hasValidWaiver a.waiverExpirationDate r.now) ∧
    ∃ ev, db.events r.eventId = some ev ∧ ev.isActive = true ∧
      r.today ≤ ev.date ∧
      (db.checkins.find? fun c =>
        c.athleteId = r.athleteId ∧ c.eventId = r.eventId) = none ∧
      ev.currentCapacity < ev.maxCapacity := by
  unfold checkPhase at h
  split at h
  · simp at h
  next h1 =>
    push_neg at h1
    split at h
    · simp at h
    next a ha =>
      split at h
      · simp at h
      next ev hev =>
        split at h
        · simp at h
        next hact =>
          split at h
          · simp at h
          next hdate =>
            split at h
            · simp at h
            next hdup =>
              split at h
              · simp at h
              next hcap =>
                simp only [Except.ok.injEq] at h
                refine ⟨h1.1, h1.2, ⟨a, ha, h.symm⟩, ev, hev, ?_, ?_, ?_, ?_⟩
                · revert hact
                  cases ev.isActive <;> simp
                · omega
                · simpa using hdup
                · omega

/-- The result value of POST / is the result of its read/check phase. -/
theorem createCheckIn_fst (db : DB) (r : CheckInRequest) :
    (createCheckIn db r).1 = checkPhase db r := by
  unfold createCheckIn
  cases h : checkPhase db r <;> simp

/-- A failing read/check phase leaves the state unchanged. -/
theorem createCheckIn_error_state (db : DB) (r : CheckInRequest)
    (e : CheckInError) (h : checkPhase db r = .error e) :
    createCheckIn db r = (.error e, db) := by
  unfold createCheckIn
  rw [h]

/-- A successful read/check phase commits exactly the write phase. -/
theorem createCheckIn_ok_state (db : DB) (r : CheckInRequest) (wv : Bool)
    (h : checkPhase db r = .ok wv) :
    createCheckIn db r = (.ok wv, writePhase db r wv) := by
  unfold createCheckIn
  rw [h]

/-- C3 counterexample: an active event dated strictly after today — hence
not Bookable under the spec's classification (date == today AND isActive)
— is accepted by POST /: the handler only rejects `event.date < today`. -/
theorem createCheckIn_accepts_future_event :
    futureEvent.isActive = true ∧ raceReq1.today < futureEvent.date ∧
    (createCheckIn futureDB raceReq1).1 = .ok true := by
  refine ⟨rfl, by decide, ?_⟩
  rfl

/-- C3 (amended): POST / succeeds only against an event that is active
with date ≥ today (not only date == today); against a Past or Disabled
event it never succeeds: an inactive event draws the 404
not-found-or-inactive response (shared with unknown ids), an active past
event draws the 400 past-event response. -/
theorem createCheckIn_eligibility (db : DB) (r : CheckInRequest) :
    (∀ wv, (createCheckIn db r).1 = .ok wv →
      ∃ ev, db.events r.eventId = some ev ∧ ev.isActive = true ∧
        r.today ≤ ev.date) ∧
    (∀ ev, db.events r.eventId = some ev →
      (ev.isActive = false ∨ ev.date < r.today) →
      ∀ wv, ¬ (createCheckIn db r).1 = .ok wv) ∧
    (∀ ev a, db.events r.eventId = some ev → db.athletes r.athleteId = some a →
      ¬ (r.athleteId = "" ∨ r.eventId = "") →
      (ev.isActive = false →
        (createCheckIn db r).1 = .error .eventNotFoundOrInactive ∧
        CheckInError.eventNotFoundOrInactive.httpStatus = 404) ∧
      (ev.isActive = true → ev.date < r.today →
        (createCheckIn db r).1 = .error .pastEvent ∧
        CheckInError.pastEvent.httpStatus = 400)) := by
  refine ⟨?_, ?_, ?_⟩
  · intro wv h
    rw [createCheckIn_fst] at h
    obtain ⟨-, -, -, ev, hev, hact, hdate, -, -⟩ := checkPhase_ok_spec db r wv h
    exact ⟨ev, hev, hact, hdate⟩
  · intro ev hev hbad wv h
    rw [createCheckIn_fst] at h
    obtain ⟨-, -, -, ev', hev', hact, hdate, -, -⟩ := checkPhase_ok_spec db r wv h
    rw [hev] at hev'
    cases hev'
    rcases hbad with hb | hb
    · rw [hact] at hb
      cases hb
    · omega
  · intro ev a hev ha hne
    constructor
    · intro hact
      rw [createCheckIn_fst]
      exact ⟨by simp [checkPhase, hne, ha, hev, hact], rfl⟩
    · intro hact hdate
      rw [createCheckIn_fst]
      exact ⟨by simp [checkPhase, hne, ha, hev, hact, hdate], rfl⟩

/-- Witness for C3 at a concrete input: a disabled (inactive, dated
today) event draws the 404 not-found-or-inactive response. -/
theorem createCheckIn_eligibility_witness :
    (createCheckIn disabledDB raceReq1).1 = .error .eventNotFoundOrInactive :=
  (((createCheckIn_eligibility disabledDB raceReq1).2.2
    { id := "e1", date := 0, maxCapacity := 10, currentCapacity := 0
      isActive := false, updatedAt := 0 }
    fixAthlete1 (by decide) (by decide) (by decide)).1 rfl).1

/-- C5 counterexample: from a state where event e1 stores
`currentCapacity = 0` while one check-in row still references it (a prior
invariant breach), DELETE /:id succeeds and drives `currentCapacity` to
-1: there is no internal-consistency failure, the decrement is
unconditional. -/
theorem reverseCheckIn_goes_negative :
    (reverseCheckIn corruptDB "c1" 7).1 = .ok () ∧
    ∃ ev, (reverseCheckIn corruptDB "c1" 7).2.events "e1" = some ev ∧
      ev.currentCapacity = -1 := by
  exact ⟨rfl, ⟨_, rfl, rfl⟩⟩

/-- C5 (amended): DELETE /:id on an existing check-in atomically removes
the row and decrements the owning event's `currentCapacity` by exactly
one, touching no other event and no athlete; whenever the stored capacity
equals the live check-in count of that event, the result is non-negative.
The code does not guard the decrement: from an already-corrupted state it
proceeds to a negative capacity (see the counterexample) instead of
failing with an internal-consistency error. -/
theorem reverseCheckIn_decrement (db : DB) (cid : String) (now : Int)
    (c : CheckIn) (hfind : db.checkins.find? (fun x => x.id = cid) = some c)
    (ev : Event) (hev : db.events c.eventId = some ev) :
    (reverseCheckIn db cid now).1 = .ok () ∧
    (reverseCheckIn db cid now).2.checkins =
      db.checkins.filter (fun x => ¬ x.id = cid) ∧
    (db.checkins.countP (fun x => x.id = cid) = 1 →
      (reverseCheckIn db cid now).2.checkins.length + 1 =
        db.checkins.length) ∧
    (∃ ev', (reverseCheckIn db cid now).2.events c.eventId = some ev' ∧
      ev'.currentCapacity = ev.currentCapacity - 1 ∧
      ev'.maxCapacity = ev.maxCapacity) ∧
    (∀ i, ¬ i = c.eventId →
      (reverseCheckIn db cid now).2.events i = db.events i) ∧
    (reverseCheckIn db cid now).2.athletes = db.athletes ∧
    (ev.currentCapacity =
        db.checkins.countP (fun x => x.eventId = c.eventId) →
      ∃ ev', (reverseCheckIn db cid now).2.events c.eventId = some ev' ∧
        0 ≤ ev'.currentCapacity) := by
  have hkey : ∀ l : List CheckIn,
      l.countP (fun x => x.id = cid) +
        (l.filter (fun x => ¬ x.id = cid)).length = l.length := by
    intro l
    induction l with
    | nil => rfl
    | cons c0 l ih =>
      by_cases hc : c0.id = cid
      · rw [List.countP_cons_of_pos _ _ (by simpa using hc),
          List.filter_cons_of_neg (by simpa using hc)]
        simp only [List.length_cons]
        omega
      · rw [List.countP_cons_of_neg _ _ (by simpa using hc),
          List.filter_cons_of_pos (by simpa using hc)]
        simp only [List.length_cons]
        omega
  have hmem : c ∈ db.checkins := List.mem_of_find?_eq_some hfind
  have hpos : 0 < db.checkins.countP (fun x => x.eventId = c.eventId) :=
    List.countP_pos_iff.mpr ⟨c, hmem, by simp⟩
  have hevents : (reverseCheckIn db cid now).2.events c.eventId =
      some { ev with currentCapacity := ev.currentCapacity - 1
                     updatedAt := now } := by
    simp [reverseCheckIn, hfind, hev]
  refine ⟨?_, ?_, ?_, ?_, ?_, ?_, ?_⟩
  · simp [reverseCheckIn, hfind]
  · simp [reverseCheckIn, hfind]
  · intro h1
    have h2 : (reverseCheckIn db cid now).2.checkins =
        db.checkins.filter (fun x => ¬ x.id = cid) := by
      simp [reverseCheckIn, hfind]
    rw [h2]
    have := hkey db.checkins
    omega
  · exact ⟨_, hevents, rfl, rfl⟩
  · intro i hi
    simp [reverseCheckIn, hfind, hi]
  · simp [reverseCheckIn, hfind]
  · intro hcap
    have hge : 0 ≤ ev.currentCapacity - 1 := by omega
    exact ⟨_, hevents, hge⟩

/-- Witness for C5 at a concrete input: deleting the single check-in of an
event whose stored capacity (1) matches its live count leaves a
non-negative capacity. -/
theorem reverseCheckIn_decrement_witness :
    (reverseCheckIn reverseDB "c1" 3).1 = .ok () ∧
    ∃ ev', (reverseCheckIn reverseDB "c1" 3).2.events fixCheckIn1.eventId =
        some ev' ∧ 0 ≤ ev'.currentCapacity := by
  have h := reverseCheckIn_decrement reverseDB "c1" 3 fixCheckIn1 (by decide)
    { raceEvent with currentCapacity := 1 } (by decide)
  exact ⟨h.1, h.2.2.2.2.2.2 (by decide)⟩

/-- C2 (code bug): all checks of POST / (part_001 lines 103-148) run
before BEGIN TRANSACTION (line 154), so the server can schedule both
requests' read/check phases before either transaction commits.  In that
interleaving both callers targeting the one remaining slot pass the
capacity check and both commit: the event ends at `currentCapacity = 2`
with `maxCapacity = 1` — two successes, a lost update. -/
theorem concurrent_createCheckIn_lost_update :
    createCheckIn raceDB raceReq1 =
      (.ok true, writePhase raceDB raceReq1 true) ∧
    checkPhase raceDB raceReq1 = .ok true ∧
    checkPhase raceDB raceReq2 = .ok true ∧
    ∃ ev, (writePhase (writePhase raceDB raceReq1 true) raceReq2 true).events
        "e1" = some ev ∧ ev.currentCapacity = 2 ∧ ev.maxCapacity = 1 := by
  refine ⟨rfl, rfl, rfl, ⟨_, rfl, by decide, by decide⟩⟩

/-- C4 (code bug): the four precondition checks of POST / are evaluated
before BEGIN TRANSACTION, not inside it, and are never re-validated before
COMMIT.  Interleaving two requests for the same (athleteId, eventId): both
pass the duplicate and capacity checks against the initial state, then
both transactions commit with no rollback, leaving two CheckIn rows for
one pair and `currentCapacity = 2 > maxCapacity = 1`. -/
theorem createCheckIn_checks_outside_transaction :
    checkPhase raceDB raceReq1 = .ok true ∧
    checkPhase raceDB dupReq2 = .ok true ∧
    (writePhase (writePhase raceDB raceReq1 true) dupReq2 true).checkins.countP
      (fun c => c.athleteId = "a1" ∧ c.eventId = "e1") = 2 ∧
    ∃ ev, (writePhase (writePhase raceDB raceReq1 true) dupReq2 true).events
        "e1" = some ev ∧ ev.currentCapacity = 2 ∧ ev.maxCapacity = 1 := by
  refine ⟨rfl, rfl, by decide, ⟨_, rfl, by decide, by decide⟩⟩

/-- One sequential POST / call: on error the state is unchanged; on
success the targeted event existed with a free slot and exactly its
capacity is incremented by one, other events untouched. -/
theorem createCheckIn_capacity_step (db : DB) (r : CheckInRequest) :
    ((∃ e, (createCheckIn db r).1 = .error e) ∧ (createCheckIn db r).2 = db) ∨
    ((∃ wv, (createCheckIn db r).1 = .ok wv) ∧
      ∃ ev, db.events r.eventId = some ev ∧
        ev.currentCapacity < ev.maxCapacity ∧
        (createCheckIn db r).2.events r.eventId =
          some { ev with currentCapacity := ev.currentCapacity + 1
                         updatedAt := r.now } ∧
        ∀ i, ¬ i = r.eventId → (createCheckIn db r).2.events i = db.events i) := by
  cases h : checkPhase db r with
  | error e =>
    left
    rw [createCheckIn_error_state db r e h]
    exact ⟨⟨e, rfl⟩, rfl⟩
  | ok wv =>
    right
    obtain ⟨-, -, -, ev, hev, -, -, -, hcap⟩ := checkPhase_ok_spec db r wv h
    rw [createCheckIn_ok_state db r wv h]
    refine ⟨⟨wv, rfl⟩, ev, hev, hcap, ?_, ?_⟩
    · simp [writePhase, hev]
    · intro i hi
      simp [writePhase, hi]

/-- Sequential execution of requests all targeting event `eid`: the
event's row keeps its `maxCapacity`, its capacity never decreases, it
stays at or below `maxCapacity` whenever it started there, and the number
of successes is exactly the capacity growth. -/
theorem runCreates_capacity (rs : List CheckInRequest) : ∀ (db : DB)
    (eid : String) (ev : Event), db.events eid = some ev →
    (∀ r ∈ rs, r.eventId = eid) →
    ∃ ev', (runCreates db rs).events eid = some ev' ∧
      ev'.maxCapacity = ev.maxCapacity ∧
      ev.currentCapacity ≤ ev'.currentCapacity ∧
      (ev.currentCapacity ≤ ev.maxCapacity →
        ev'.currentCapacity ≤ ev.maxCapacity) ∧
      (countCreateOks db rs : Int) =
        ev'.currentCapacity - ev.currentCapacity := by
  induction rs with
  | nil =>
    intro db eid ev hev _
    exact ⟨ev, hev, rfl, le_refl _, fun h => h,
      by simp [countCreateOks, runCreates]⟩
  | cons r rs ih =>
    intro db eid ev hev hall
    have hre : r.eventId = eid := hall r (List.mem_cons_self r rs)
    have hall' : ∀ q ∈ rs, q.eventId = eid :=
      fun q hq => hall q (List.mem_cons_of_mem r hq)
    have hrun : runCreates db (r :: rs) = runCreates (createCheckIn db r).2 rs :=
      rfl
    rcases createCheckIn_capacity_step db r with
      ⟨⟨e, he⟩, hst⟩ | ⟨⟨wv, hok⟩, ev0, hev0, hlt, hupd, hfr⟩
    · have h2 : countCreateOks db (r :: rs) =
          countCreateOks (createCheckIn db r).2 rs := by
        simp only [countCreateOks, he, Nat.zero_add]
      obtain ⟨ev', k1, k2, k3, k4, k5⟩ := ih (createCheckIn db r).2 eid ev
        (by rw [hst]; exact hev) hall'
      exact ⟨ev', by rw [hrun]; exact k1, k2, k3, k4, by rw [h2]; exact k5⟩
    · rw [hre] at hev0
      rw [hev] at hev0
      cases hev0
      have h2 : countCreateOks db (r :: rs) =
          1 + countCreateOks (createCheckIn db r).2 rs := by
        simp only [countCreateOks, hok]
      have hev1 : (createCheckIn db r).2.events eid = some
          { ev with currentCapacity := ev.currentCapacity + 1
                    updatedAt := r.now } := by
        rw [← hre]
        exact hupd
      obtain ⟨ev', k1, k2, k3, k4, k5⟩ := ih (createCheckIn db r).2 eid
        { ev with currentCapacity := ev.currentCapacity + 1
                  updatedAt := r.now } hev1 hall'
      refine ⟨ev', by rw [hrun]; exact k1, k2, ?_, ?_, ?_⟩
      · simp only at k3
        omega
      · intro h0
        simp only at k4
        omega
      · rw [h2]
        simp only at k5
        push_cast
        omega

/-- C1: under sequential execution, capacity is sound.  Part 1: from a
state where event `eid` satisfies 0 ≤ currentCapacity ≤ maxCapacity = N,
any sequence of POST / calls targeting it leaves currentCapacity ≤ N and
at most N of the calls succeed.  Part 2: a call made while
currentCapacity ≥ maxCapacity never succeeds, and when it is otherwise
admissible (ids present, athlete exists, event active and not past, no
duplicate) it fails precisely with the 400 capacity-exhausted response. -/
theorem createCheckIn_capacity_invariant (db : DB) (rs : List CheckInRequest)
    (eid : String) (ev : Event) (hev : db.events eid = some ev)
    (hc0 : 0 ≤ ev.currentCapacity) (hcm : ev.currentCapacity ≤ ev.maxCapacity)
    (hall : ∀ r ∈ rs, r.eventId = eid) :
    (∃ ev', (runCreates db rs).events eid = some ev' ∧
      ev'.currentCapacity ≤ ev.maxCapacity ∧
      (countCreateOks db rs : Int) ≤ ev.maxCapacity) ∧
    (∀ (db2 : DB) (r : CheckInRequest) (ev2 : Event),
      db2.events r.eventId = some ev2 →
      ev2.maxCapacity ≤ ev2.currentCapacity →
      (∀ wv, ¬ (createCheckIn db2 r).1 = .ok wv) ∧
      (∀ a, ¬ (r.athleteId = "" ∨ r.eventId = "") →
        db2.athletes r.athleteId = some a →
        ev2.isActive = true → ¬ ev2.date < r.today →
        (db2.checkins.find? fun c =>
          c.athleteId = r.athleteId ∧ c.eventId = r.eventId) = none →
        (createCheckIn db2 r).1 = .error .capacityFull ∧
        CheckInError.capacityFull.httpStatus = 400)) := by
  constructor
  · obtain ⟨ev', k1, k2, k3, k4, k5⟩ := runCreates_capacity rs db eid ev hev hall
    exact ⟨ev', k1, k4 hcm, by omega⟩
  · intro db2 r ev2 hev2 hfull
    constructor
    · intro wv h
      rw [createCheckIn_fst] at h
      obtain ⟨-, -, -, ev3, hev3, -, -, -, hlt⟩ := checkPhase_ok_spec db2 r wv h
      rw [hev2] at hev3
      cases hev3
      omega
    · intro a hne ha hact hdate hdup
      rw [createCheckIn_fst]
      refine ⟨?_, rfl⟩
      simp [checkPhase, hne, ha, hev2, hact, hdate, hdup, hfull]
      intro x hx hxa
      have h5 := List.find?_eq_none.mp hdup x hx
      simpa [hxa] using h5

/-- Witness for C1 at a concrete input: two requests against a fresh
1-capacity event leave capacity at most 1 and at most one success. -/
theorem createCheckIn_capacity_invariant_witness :
    ∃ ev', (runCreates raceDB [raceReq1, raceReq2]).events "e1" = some ev' ∧
      ev'.currentCapacity ≤ raceEvent.maxCapacity ∧
      (countCreateOks raceDB [raceReq1, raceReq2] : Int) ≤
        raceEvent.maxCapacity :=
  (createCheckIn_capacity_invariant raceDB [raceReq1, raceReq2] "e1" raceEvent
    (by decide) (by decide) (by decide) (by decide)).1

/-- One operation step preserves spec invariant 3: no (athleteId,
eventId) pair-count rises above one.  POST / only inserts after its
duplicate check saw no row for the pair; every other operation only
removes or rewrites notes. -/
theorem uniquePairs_applyOp (db : DB) (op : Op) (h : uniquePairs db) :
    uniquePairs (applyOp db op) := by
  intro a e
  cases op with
  | create r =>
    show ((createCheckIn db r).2.checkins.countP _) ≤ 1
    cases hc : checkPhase db r with
    | error er =>
      rw [createCheckIn_error_state db r er hc]
      exact h a e
    | ok wv =>
      rw [createCheckIn_ok_state db r wv hc]
      obtain ⟨-, -, -, ev, -, -, -, hdup, -⟩ := checkPhase_ok_spec db r wv hc
      simp only [writePhase, List.countP_cons]
      by_cases hpair : r.athleteId = a ∧ r.eventId = e
      · have hzero : db.checkins.countP
            (fun c => c.athleteId = a ∧ c.eventId = e) = 0 := by
          rw [List.countP_eq_zero]
          intro c hcmem
          have h5 := List.find?_eq_none.mp hdup c hcmem
          rw [hpair.1, hpair.2] at h5
          exact h5
        rw [hzero]
        split <;> omega
      · simp only [decide_eq_true_eq, hpair, if_false]
        exact h a e
  | reverse id now =>
    show ((reverseCheckIn db id now).2.checkins.countP _) ≤ 1
    cases hf : db.checkins.find? (fun c => c.id = id) with
    | none =>
      simp only [reverseCheckIn, hf]
      exact h a e
    | some c0 =>
      simp only [reverseCheckIn, hf]
      refine le_trans ?_ (h a e)
      rw [List.countP_filter]
      exact List.countP_mono_left fun x _ hx =>
        ((Bool.and_eq_true _ _).mp hx).1
  | editNotes id notes =>
    show ((updateNotes db id notes).2.checkins.countP _) ≤ 1
    cases hf : db.checkins.find? (fun c => c.id = id) with
    | none =>
      simp only [updateNotes, hf]
      exact h a e
    | some c0 =>
      simp only [updateNotes, hf]
      have hmap : (db.checkins.map (fun c =>
          if c.id = id then { c with notes := notes } else c)).countP
            (fun c => c.athleteId = a ∧ c.eventId = e) =
          db.checkins.countP (fun c => c.athleteId = a ∧ c.eventId = e) := by
        rw [List.countP_map]
        exact List.countP_congr fun x _ => by
          by_cases hx : x.id = id <;> simp [hx, Function.comp]
      rw [hmap]
      exact h a e
  | removeEvent id =>
    show ((deleteEvent db id).2.checkins.countP _) ≤ 1
    cases hf : db.events id with
    | none =>
      simp only [deleteEvent, hf]
      exact h a e
    | some ev =>
      simp only [deleteEvent, hf]
      split
      · exact h a e
      · exact h a e
  | removeAthlete id =>
    show ((deleteAthlete db id).2.checkins.countP _) ≤ 1
    cases hf : db.athletes id with
    | none =>
      simp only [deleteAthlete, hf]
      exact h a e
    | some a0 =>
      simp only [deleteAthlete, hf]
      exact h a e

/-- Spec invariant 3 is preserved by any sequence of operations. -/
theorem uniquePairs_runOps (ops : List Op) :
    ∀ db, uniquePairs db → uniquePairs (runOps db ops) := by
  induction ops with
  | nil => exact fun _ h => h
  | cons op ops ih => exact fun db h => ih _ (uniquePairs_applyOp db op h)

/-- C6: starting from a state with at most one check-in row per
(athleteId, eventId) pair, any sequence of operations preserves that
bound; and a POST / for a pair that already has a row never succeeds —
when the request is otherwise admissible it fails precisely with the 400
already-checked-in response, so of two sequential identical calls exactly
the first can succeed. -/
theorem checkin_pair_uniqueness (db : DB) (ops : List Op)
    (h : uniquePairs db) :
    uniquePairs (runOps db ops) ∧
    (∀ r : CheckInRequest,
      0 < db.checkins.countP (fun c =>
        c.athleteId = r.athleteId ∧ c.eventId = r.eventId) →
      (∀ wv, ¬ (createCheckIn db r).1 = .ok wv) ∧
      (∀ a ev, ¬ (r.athleteId = "" ∨ r.eventId = "") →
        db.athletes r.athleteId = some a →
        db.events r.eventId = some ev →
        ev.isActive = true → ¬ ev.date < r.today →
        (createCheckIn db r).1 = .error .duplicateCheckIn ∧
        CheckInError.duplicateCheckIn.httpStatus = 400)) := by
  refine ⟨uniquePairs_runOps ops db h, ?_⟩
  intro r hdup
  obtain ⟨c0, hc0mem, hc0p⟩ := List.countP_pos_iff.mp hdup
  constructor
  · intro wv hok
    rw [createCheckIn_fst] at hok
    obtain ⟨-, -, -, ev, -, -, -, hnone, -⟩ := checkPhase_ok_spec db r wv hok
    exact List.find?_eq_none.mp hnone c0 hc0mem hc0p
  · intro a ev hne ha hev hact hdate
    refine ⟨?_, rfl⟩
    rw [createCheckIn_fst]
    have hc0pp : c0.athleteId = r.athleteId ∧ c0.eventId = r.eventId := by
      simpa using hc0p
    simp [checkPhase, hne, ha, hev, hact, hdate]
    intro hforall
    exact absurd hc0pp.2 (hforall c0 hc0mem hc0pp.1)

/-- Witness for C6 at a concrete input: with the (a1, e1) check-in
already stored, a second request for the same pair draws the 400
already-checked-in response. -/
theorem checkin_pair_uniqueness_witness :
    (createCheckIn reverseDB dupReq2).1 = .error .duplicateCheckIn :=
  (((checkin_pair_uniqueness reverseDB [] (fun a e => by
      simp only [reverseDB]
      rw [List.countP_singleton]
      split <;> omega)).2 dupReq2 (by decide)).2
    fixAthlete1 { raceEvent with currentCapacity := 1 }
    (by decide) (by decide) (by decide) (by decide) (by decide)).1

end NovaCheckin
